import Mathlib

/-!
Verification of the ledger / reconciliation core of a wedding expense
tracker (source: `expense_manager_app.py`).

The app stores four kinds of rows (income, expense, pending income,
budget) in a relational store and derives a running-balance ledger,
per-category aggregates and a pending-income reconciliation workflow
from them.  This file shallowly embeds those data model pieces and the
operations on them:

* the ledger builder of the Dashboard branch
  (`pd.concat([...]).sort_values("date", kind="stable")`, then
  `delta.cumsum()`),
* the "Move to Income" pending reconciliation loop,
* the Add Income / Add Expense / Pending form handlers,
* the Quick Add free-text save (fallback normalization of an
  extraction result),
* the donut-chart small-slice merging of per-category spend.

Timestamps of stored rows are abstracted to integers (any linearly
ordered time axis); currency amounts are rationals (Python floats never
hit precision limits in any property below).  Fallible Python code
(`datetime.fromisoformat`, `int(...)` on a non-numeric string) is
modelled with `Option`, `none` standing for a raised exception.
-/

namespace ExpenseManager

/-- A row of the `income` table: `insert into income (date, amount_lkr,
source, notes)`. -/
structure IncomeRecord where
  date : Int
  amount_lkr : ℚ
  source : String
  notes : String
deriving DecidableEq

/-- A row of the `expense` table: `insert into expense (date, amount_lkr,
category, notes)`. -/
structure ExpenseRecord where
  date : Int
  amount_lkr : ℚ
  category : String
  notes : String
deriving DecidableEq

/-- A row of the merged ledger frame built on the Dashboard:
`df_inc.assign(delta=df_inc["amount_lkr"])` contributes `+amount`,
`df_exp.assign(delta=-df_exp["amount_lkr"])` contributes `-amount`. -/
structure LedgerRow where
  date : Int
  delta : ℚ
deriving DecidableEq

/-- The sort key of `.sort_values("date", kind="stable")`. -/
def dateLE (a b : LedgerRow) : Prop := a.date ≤ b.date

instance : DecidableRel dateLE := fun a b => inferInstanceAs (Decidable (a.date ≤ b.date))

instance : IsTotal LedgerRow dateLE := ⟨fun a b => Int.le_total a.date b.date⟩

instance : IsTrans LedgerRow dateLE := ⟨fun _ _ _ hab hbc => Int.le_trans hab hbc⟩

/-- `pd.concat([df_inc.assign(delta=+amount), df_exp.assign(delta=-amount)])`:
income rows first (in input order), then expense rows. -/
def mergedRows (inc : List IncomeRecord) (exp : List ExpenseRecord) : List LedgerRow :=
  inc.map (fun r => { date := r.date, delta := r.amount_lkr })
    ++ exp.map (fun r => { date := r.date, delta := -r.amount_lkr })

/-- `.sort_values("date", kind="stable")` — a stable sort by timestamp
ascending (insertion sort is stable for a non-strict key order). -/
def sortByDate (l : List LedgerRow) : List LedgerRow :=
  List.insertionSort dateLE l

/-- The sorted ledger frame (before the cumulative sum column is added). -/
def ledgerRows (inc : List IncomeRecord) (exp : List ExpenseRecord) : List LedgerRow :=
  sortByDate (mergedRows inc exp)

/-- `Series.cumsum()`: the list of partial sums, starting from `acc`. -/
def cumsum (acc : ℚ) : List ℚ → List ℚ
  | [] => []
  | x :: xs => (acc + x) :: cumsum (acc + x) xs

/-- `ledger["balance"] = ledger["delta"].cumsum()` — the running-balance
column of the sorted ledger. -/
def runningBalance (rows : List LedgerRow) : List ℚ :=
  cumsum 0 (rows.map (·.delta))

/-- `df_inc["amount_lkr"].sum()`. -/
def totalIncome (inc : List IncomeRecord) : ℚ :=
  (inc.map (·.amount_lkr)).sum

/-- `df_exp["amount_lkr"].sum()`. -/
def totalExpense (exp : List ExpenseRecord) : ℚ :=
  (exp.map (·.amount_lkr)).sum

lemma getLast?_cumsum (l : List ℚ) : ∀ acc : ℚ,
    (cumsum acc l).getLast? = if l = [] then none else some (acc + l.sum) := by
  induction l with
  | nil => intro acc; rfl
  | cons x xs ih =>
    intro acc
    cases xs with
    | nil => simp [cumsum]
    | cons y ys =>
      rw [if_neg (by simp)]
      have hys := ih (acc + x)
      rw [if_neg (by simp)] at hys
      calc (cumsum acc (x :: y :: ys)).getLast?
          = (cumsum (acc + x) (y :: ys)).getLast? := by
            show ((acc + x) :: cumsum (acc + x) (y :: ys)).getLast? = _
            rw [cumsum, List.getLast?_cons_cons, ← cumsum]
        _ = some (acc + (x :: y :: ys).sum) := by
            rw [hys]; congr 1; simp [add_assoc]

lemma sum_map_neg (l : List ℚ) : (l.map (fun x => -x)).sum = -l.sum := by
  induction l with
  | nil => simp
  | cons x xs ih => simp [ih, neg_add]; ring

lemma mergedRows_delta_sum (inc : List IncomeRecord) (exp : List ExpenseRecord) :
    ((mergedRows inc exp).map (·.delta)).sum = totalIncome inc - totalExpense exp := by
  unfold mergedRows totalIncome totalExpense
  rw [List.map_append, List.sum_append, List.map_map, List.map_map]
  have h2 : (exp.map ((fun r : LedgerRow => r.delta) ∘
      (fun r : ExpenseRecord => ({ date := r.date, delta := -r.amount_lkr } : LedgerRow)))) =
      ((exp.map (·.amount_lkr)).map (fun x => -x)) := by
    rw [List.map_map]; rfl
  have h1 : (inc.map ((fun x : LedgerRow => x.delta) ∘
      (fun r : IncomeRecord => ({ date := r.date, delta := r.amount_lkr } : LedgerRow)))) =
      inc.map (·.amount_lkr) := by
    rfl
  rw [h2, sum_map_neg, h1]
  ring

lemma ledgerRows_perm (inc : List IncomeRecord) (exp : List ExpenseRecord) :
    List.Perm (ledgerRows inc exp) (mergedRows inc exp) :=
  List.perm_insertionSort dateLE (mergedRows inc exp)

/-- C1: the ledger built by merging income (delta `+amount`) and expense
(delta `-amount`) rows and stable-sorting by timestamp has a final
running-balance value equal to total income minus total expense, and is
empty exactly when the input is empty. -/
theorem ledger_final_balance (inc : List IncomeRecord) (exp : List ExpenseRecord) :
    (ledgerRows inc exp = [] ↔ inc = [] ∧ exp = [])
    ∧ (runningBalance (ledgerRows inc exp)).getLast?
        = if inc = [] ∧ exp = [] then none
          else some (totalIncome inc - totalExpense exp) := by
  have hperm := ledgerRows_perm inc exp
  have hempty : ledgerRows inc exp = [] ↔ inc = [] ∧ exp = [] := by
    rw [← List.length_eq_zero, hperm.length_eq]
    unfold mergedRows
    rw [List.length_append, List.length_map, List.length_map]
    rw [Nat.add_eq_zero, List.length_eq_zero, List.length_eq_zero]
  refine ⟨hempty, ?_⟩
  have hsum : ((ledgerRows inc exp).map (·.delta)).sum
      = totalIncome inc - totalExpense exp := by
    rw [(hperm.map (·.delta)).sum_eq, mergedRows_delta_sum]
  by_cases h : inc = [] ∧ exp = []
  · rw [if_pos h]
    have : ledgerRows inc exp = [] := hempty.mpr h
    rw [runningBalance, this]
    rfl
  · rw [if_neg h, runningBalance, getLast?_cumsum]
    have hne : ledgerRows inc exp ≠ [] := fun hh => h (hempty.mp hh)
    rw [if_neg (by simpa using hne), hsum, zero_add]

lemma filter_orderedInsert (d : Int) (x : LedgerRow) (l : List LedgerRow) :
    (List.orderedInsert dateLE x l).filter (fun r => r.date == d)
      = (x :: l).filter (fun r => r.date == d) := by
  induction l with
  | nil => rfl
  | cons y ys ih =>
    by_cases h : dateLE x y
    · rw [List.orderedInsert_of_le _ _ h]
    · have hstep : List.orderedInsert dateLE x (y :: ys) = y :: List.orderedInsert dateLE x ys := by
        simp only [List.orderedInsert, if_neg h]
      rw [hstep, List.filter_cons, List.filter_cons, ih, List.filter_cons]
      have hxy : x.date ≠ y.date := by
        intro he
        exact h (le_of_eq he)
      by_cases px : x.date = d <;> by_cases py : y.date = d
      · exact absurd (px.trans py.symm) hxy
      · simp [px, py, List.filter_cons]
      · simp [px, py, List.filter_cons]
      · simp [px, py, List.filter_cons]

lemma filter_sortByDate (d : Int) (l : List LedgerRow) :
    (sortByDate l).filter (fun r => r.date == d) = l.filter (fun r => r.date == d) := by
  induction l with
  | nil => rfl
  | cons x xs ih =>
    show (List.orderedInsert dateLE x (List.insertionSort dateLE xs)).filter _ = _
    rw [filter_orderedInsert, List.filter_cons, List.filter_cons]
    unfold sortByDate at ih
    rw [ih]

/-- C9: the ledger's `sort_values("date", kind="stable")` is a stable sort:
the output is sorted by timestamp, and for each timestamp `d` the
subsequence of rows carrying `d` is exactly the subsequence of the merged
input carrying `d` — i.e. rows with identical timestamps keep their
relative input order. -/
theorem ledger_sort_stable (inc : List IncomeRecord) (exp : List ExpenseRecord) :
    List.Sorted dateLE (ledgerRows inc exp)
    ∧ ∀ d : Int, (ledgerRows inc exp).filter (fun r => r.date == d)
        = (mergedRows inc exp).filter (fun r => r.date == d) := by
  constructor
  · exact List.sorted_insertionSort dateLE (mergedRows inc exp)
  · intro d
    exact filter_sortByDate d (mergedRows inc exp)

/-- A row of the `pending_income` table: `insert into pending_income
(expected_on, amount_lkr, source, notes)` plus the serial `id` and the
`cleared` flag (default `false`).  Nullable columns are `Option`;
`pd.isna` holds exactly on `none`. -/
structure PendingRecord where
  id : Nat
  expected_on : Int
  amount_lkr : Option ℚ
  source : Option String
  notes : Option String
  cleared : Bool
deriving DecidableEq

/-- The record store visible to the handlers: the `income`, `expense` and
`pending_income` tables of one profile. -/
structure Store where
  income : List IncomeRecord
  expense : List ExpenseRecord
  pending : List PendingRecord
deriving DecidableEq

/-- The field cleaning of the Move-to-Income loop:
`amt = 0.0 if pd.isna(...) else float(...)`, `src = "" if pd.isna(...)`,
`note = "" if pd.isna(...)`, inserted with `date = now()`. -/
def mkIncomeFromPending (now : Int) (row : PendingRecord) : IncomeRecord :=
  { date := now
    amount_lkr := row.amount_lkr.getD 0
    source := row.source.getD ""
    notes := row.notes.getD "" }

/-- One iteration of the `for pid in chosen` loop of "✅ Move to Income".
`row = p_df.loc[p_df["id"] == pid].iloc[0]` is the first matching row of
the loaded snapshot; then `insert into income (date, ...) values (now(), ...)`
followed by `update pending_income set cleared=true where id=:i`, each
`run` call its own transaction.  `insFail` / `updFail` say whether the
insert / update statement raises; the returned flag is whether the
`except` branch ran (the failure is reported and the loop continues).
A `true` flag with no state change models `continue` after the error. -/
def moveOne (now : Int) (insFail updFail : Bool) (st : Store) (pid : Nat) : Store × Bool :=
  match st.pending.find? (fun r => r.id == pid) with
  | none => (st, true)
  | some row =>
      if insFail then (st, true)
      else
        let st1 : Store := { st with income := st.income ++ [mkIncomeFromPending now row] }
        if updFail then (st1, true)
        else
          ({ st1 with pending :=
              st1.pending.map (fun r => if r.id == pid then { r with cleared := true } else r) },
           false)

/-- The whole "✅ Move to Income" button handler over the selected ids,
threading the store and collecting the ids whose iteration raised
(reported via `st.error` in the app). -/
def moveToIncome (now : Int) (insF updF : Nat → Bool) :
    Store → List Nat → Store × List Nat
  | st, [] => (st, [])
  | st, pid :: rest =>
      let step := moveOne now (insF pid) (updF pid) st pid
      let res := moveToIncome now insF updF step.1 rest
      (res.1, if step.2 then pid :: res.2 else res.2)

/-- `unclrd = p_df.loc[~p_df["cleared"], "id"]` — the ids offered by the
multiselect, i.e. the only ids that can appear in `chosen`. -/
def unclrdIds (st : Store) : List Nat :=
  (st.pending.filter (fun r => !r.cleared)).map (·.id)

/-- C2: reconciling a pending record with `cleared = false` appends exactly
one income record whose amount/source/notes are the pending fields with
`none` defaulted to `0` / `""` / `""` and whose timestamp is the
reconciliation instant `now`; afterwards every pending row with that id is
cleared.  Uncleared ids are offered by the multiselect, while an id all of
whose rows are cleared is not selectable at all (re-reconciliation is
rejected), so `cleared` goes `false → true` exactly once. -/
lemma moveOne_success (now : Int) (st : Store) (pid : Nat) (row : PendingRecord)
    (hfind : st.pending.find? (fun r => r.id == pid) = some row) :
    (moveOne now false false st pid).1.income = st.income ++ [mkIncomeFromPending now row]
    ∧ (moveOne now false false st pid).1.pending
        = st.pending.map (fun r => if r.id == pid then { r with cleared := true } else r) := by
  unfold moveOne
  rw [hfind]
  exact ⟨rfl, rfl⟩

lemma moveOne_eq (now : Int) (st : Store) (pid : Nat) (row : PendingRecord)
    (hfind : st.pending.find? (fun r => r.id == pid) = some row) :
    moveOne now false false st pid
      = ({ income := st.income ++ [mkIncomeFromPending now row]
           expense := st.expense
           pending := st.pending.map
             (fun r => if r.id == pid then { r with cleared := true } else r) }, false) := by
  unfold moveOne
  rw [hfind]
  rfl

lemma moveOne_insFail (now : Int) (uF : Bool) (st : Store) (pid : Nat) (row : PendingRecord)
    (hfind : st.pending.find? (fun r => r.id == pid) = some row) :
    moveOne now true uF st pid = (st, true) := by
  unfold moveOne
  rw [hfind]
  rfl

lemma moveOne_updFail (now : Int) (st : Store) (pid : Nat) (row : PendingRecord)
    (hfind : st.pending.find? (fun r => r.id == pid) = some row) :
    moveOne now false true st pid
      = ({ st with income := st.income ++ [mkIncomeFromPending now row] }, true) := by
  unfold moveOne
  rw [hfind]
  rfl

lemma mem_unclrdIds (st : Store) (p : PendingRecord) (pid : Nat)
    (hp : p ∈ st.pending) (hpid : p.id = pid) (hclr : p.cleared = false) :
    pid ∈ unclrdIds st := by
  unfold unclrdIds
  exact List.mem_map.mpr ⟨p, List.mem_filter.mpr ⟨hp, by simp [hclr]⟩, hpid⟩

theorem pending_reconcile_once (now : Int) (st : Store) (pid : Nat) :
    (∀ p, st.pending.find? (fun r => r.id == pid) = some p → p.cleared = false →
      (moveOne now false false st pid).1.income
          = st.income ++ [⟨now, p.amount_lkr.getD 0, p.source.getD "", p.notes.getD ""⟩]
      ∧ ∀ q ∈ (moveOne now false false st pid).1.pending, q.id = pid → q.cleared = true)
    ∧ (∀ p ∈ st.pending, p.id = pid → p.cleared = false → pid ∈ unclrdIds st)
    ∧ ((∀ q ∈ st.pending, q.id = pid → q.cleared = true) → pid ∉ unclrdIds st) := by
  refine ⟨?_, ?_, ?_⟩
  · intro p hfind _
    obtain ⟨hinc, hpend⟩ := moveOne_success now st pid p hfind
    refine ⟨hinc, ?_⟩
    intro q hq hqid
    rw [hpend] at hq
    simp only [List.mem_map] at hq
    obtain ⟨r, _, hr⟩ := hq
    by_cases hid : r.id = pid
    · rw [if_pos (by simpa using hid)] at hr
      rw [← hr]
    · rw [if_neg (by simpa using hid)] at hr
      exact absurd (hr ▸ hqid) hid
  · intro p hp hpid hpclr
    exact mem_unclrdIds st p pid hp hpid hpclr
  · intro hall hmem
    unfold unclrdIds at hmem
    obtain ⟨r, hr, hrid⟩ := List.mem_map.mp hmem
    obtain ⟨hrmem, hrclr⟩ := List.mem_filter.mp hr
    have := hall r hrmem hrid
    simp [this] at hrclr

/-- Witness for C2 at a concrete store: pending row 1 (amount 5000, source
"Gift", null notes, uncleared) reconciles into an income record
`(now, 5000, "Gift", "")`, and the cleared row 2 is not selectable. -/
theorem pending_reconcile_once_witness :
    (moveOne 99 false false
        ⟨[], [], [⟨1, 0, some 5000, some "Gift", none, false⟩,
                  ⟨2, 0, some 10, none, none, true⟩]⟩ 1).1.income
      = [⟨99, 5000, "Gift", ""⟩]
    ∧ 1 ∈ unclrdIds ⟨[], [], [⟨1, 0, some 5000, some "Gift", none, false⟩,
                  ⟨2, 0, some 10, none, none, true⟩]⟩
    ∧ 2 ∉ unclrdIds ⟨[], [], [⟨1, 0, some 5000, some "Gift", none, false⟩,
                  ⟨2, 0, some 10, none, none, true⟩]⟩ := by
  refine ⟨?_, ?_, ?_⟩
  · exact ((pending_reconcile_once 99 _ 1).1 ⟨1, 0, some 5000, some "Gift", none, false⟩
      (by decide) rfl).1
  · exact (pending_reconcile_once 99 _ 1).2.1 ⟨1, 0, some 5000, some "Gift", none, false⟩
      (by decide) rfl rfl
  · exact (pending_reconcile_once 99 _ 2).2.2 (by decide)

/-- C10: the two reconciliation writes are separate `engine.begin()`
transactions.  If the cleared-update raises after the income insert
committed, the inserted income record persists with the pending row left
uncleared; the id is still selectable, and reconciling it again inserts a
second income record for the same pending row. -/
theorem reconcile_partial_failure (now now2 : Int) (st : Store) (pid : Nat) (p : PendingRecord)
    (hfind : st.pending.find? (fun r => r.id == pid) = some p)
    (hclr : p.cleared = false) :
    (moveOne now false true st pid).1.income = st.income ++ [mkIncomeFromPending now p]
    ∧ (moveOne now false true st pid).1.pending = st.pending
    ∧ pid ∈ unclrdIds (moveOne now false true st pid).1
    ∧ (moveOne now2 false false (moveOne now false true st pid).1 pid).1.income
        = st.income ++ [mkIncomeFromPending now p, mkIncomeFromPending now2 p] := by
  have hfail := moveOne_updFail now st pid p hfind
  have hpend : (moveOne now false true st pid).1.pending = st.pending := by
    rw [hfail]
  have hid : p.id = pid := by
    have := List.find?_some hfind
    simpa using this
  refine ⟨by rw [hfail], hpend, ?_, ?_⟩
  · exact mem_unclrdIds _ p pid (hpend ▸ List.mem_of_find?_eq_some hfind) hid hclr
  · have hfind2 : (moveOne now false true st pid).1.pending.find? (fun r => r.id == pid)
        = some p := by
      rw [hpend, hfind]
    rw [(moveOne_success now2 _ pid p hfind2).1, hfail]
    simp

/-- Witness for C10: with pending row 1 uncleared, an insert that commits
followed by a failing cleared-update leaves the income row in place, the
pending row uncleared and selectable, and a retry inserts a second copy. -/
theorem reconcile_partial_failure_witness :
    (moveOne 7 false true ⟨[], [], [⟨1, 0, some 5000, some "Gift", none, false⟩]⟩ 1).1.income
        = [⟨7, 5000, "Gift", ""⟩]
    ∧ (moveOne 7 false true ⟨[], [], [⟨1, 0, some 5000, some "Gift", none, false⟩]⟩ 1).1.pending
        = [⟨1, 0, some 5000, some "Gift", none, false⟩]
    ∧ 1 ∈ unclrdIds (moveOne 7 false true ⟨[], [], [⟨1, 0, some 5000, some "Gift", none, false⟩]⟩ 1).1
    ∧ (moveOne 8 false false
        (moveOne 7 false true ⟨[], [], [⟨1, 0, some 5000, some "Gift", none, false⟩]⟩ 1).1 1).1.income
        = [⟨7, 5000, "Gift", ""⟩, ⟨8, 5000, "Gift", ""⟩] :=
  reconcile_partial_failure 7 8 ⟨[], [], [⟨1, 0, some 5000, some "Gift", none, false⟩]⟩ 1
    ⟨1, 0, some 5000, some "Gift", none, false⟩ (by decide) rfl

lemma filter_map_setCleared (q pid : Nat) (hne : q ≠ pid) (l : List PendingRecord) :
    (l.map (fun r => if r.id == q then { r with cleared := true } else r)).filter
        (fun r => r.id == pid)
      = l.filter (fun r => r.id == pid) := by
  induction l with
  | nil => rfl
  | cons r rs ih =>
    rw [List.map_cons, List.filter_cons, List.filter_cons, ih]
    by_cases h : r.id = q
    · simp [h, hne]
    · simp [h]

lemma any_map_setCleared (q j : Nat) (l : List PendingRecord) :
    (l.map (fun r => if r.id == q then { r with cleared := true } else r)).any
        (fun r => r.id == j)
      = l.any (fun r => r.id == j) := by
  induction l with
  | nil => rfl
  | cons r rs ih =>
    rw [List.map_cons, List.any_cons, List.any_cons, ih]
    by_cases h : r.id = q <;> simp [h]

lemma moveOne_pending_any (now : Int) (iF uF : Bool) (st : Store) (pid j : Nat) :
    ((moveOne now iF uF st pid).1).pending.any (fun r => r.id == j)
      = st.pending.any (fun r => r.id == j) := by
  unfold moveOne
  cases hf : st.pending.find? (fun r => r.id == pid) with
  | none => rfl
  | some row =>
    cases iF with
    | true => rfl
    | false =>
      cases uF with
      | true => rfl
      | false => exact any_map_setCleared pid j st.pending

lemma moveOne_pending_filter_ne (now : Int) (st : Store) (q pid : Nat) (hne : q ≠ pid) :
    (moveOne now false false st q).1.pending.filter (fun r => r.id == pid)
      = st.pending.filter (fun r => r.id == pid) := by
  unfold moveOne
  cases hf : st.pending.find? (fun r => r.id == q) with
  | none => rfl
  | some row => exact filter_map_setCleared q pid hne st.pending

lemma foldl_pending_filter (now : Int) (pid : Nat) : ∀ (l : List Nat) (st : Store),
    (∀ q ∈ l, q ≠ pid) →
    ((l.foldl (fun s i => (moveOne now false false s i).1) st).pending.filter
        (fun r => r.id == pid))
      = st.pending.filter (fun r => r.id == pid) := by
  intro l
  induction l with
  | nil => intro st _; rfl
  | cons q qs ih =>
    intro st hq
    rw [List.foldl_cons, ih _ (fun x hx => hq x (List.mem_cons_of_mem _ hx))]
    exact moveOne_pending_filter_ne now st q pid (hq q (List.mem_cons_self _ _))

lemma moveToIncome_cons (now : Int) (insF updF : Nat → Bool) (st : Store) (pid : Nat)
    (rest : List Nat) :
    moveToIncome now insF updF st (pid :: rest)
      = ((moveToIncome now insF updF (moveOne now (insF pid) (updF pid) st pid).1 rest).1,
         if (moveOne now (insF pid) (updF pid) st pid).2
         then pid :: (moveToIncome now insF updF
            (moveOne now (insF pid) (updF pid) st pid).1 rest).2
         else (moveToIncome now insF updF
            (moveOne now (insF pid) (updF pid) st pid).1 rest).2) := rfl

lemma moveToIncome_eq (now : Int) (insF : Nat → Bool) (chosen : List Nat) :
    ∀ st : Store,
    (∀ pid ∈ chosen, st.pending.any (fun r => r.id == pid) = true) →
    moveToIncome now insF (fun _ => false) st chosen
      = ((chosen.filter (fun i => !insF i)).foldl
            (fun s i => (moveOne now false false s i).1) st,
         chosen.filter (fun i => insF i)) := by
  induction chosen with
  | nil => intro st _; rfl
  | cons pid rest ih =>
    intro st hpres
    have hany := hpres pid (List.mem_cons_self _ _)
    have hsome : (st.pending.find? (fun r => r.id == pid)).isSome := by
      rw [List.find?_isSome]
      exact List.any_eq_true.mp hany
    obtain ⟨row, hrow⟩ := Option.isSome_iff_exists.mp hsome
    have hrest : ∀ j ∈ rest, st.pending.any (fun r => r.id == j) = true :=
      fun j hj => hpres j (List.mem_cons_of_mem _ hj)
    rw [moveToIncome_cons]
    cases hins : insF pid with
    | true =>
      rw [moveOne_insFail now false st pid row hrow]
      dsimp only
      rw [ih st hrest]
      simp [hins, List.filter_cons]
    | false =>
      have hstep2 : (moveOne now false false st pid).2 = false := by
        rw [moveOne_eq now st pid row hrow]
      have hrest2 : ∀ j ∈ rest,
          (moveOne now false false st pid).1.pending.any (fun r => r.id == j) = true := by
        intro j hj
        rw [moveOne_pending_any]
        exact hrest j hj
      rw [ih _ hrest2, hstep2]
      simp [hins, List.filter_cons]

/-- C8: in the batch reconciliation loop, an id whose income insert raises
is skipped (its try-block changes nothing) and reported, while the other
selected ids are still processed in order; in particular the pending rows
of a failed id are untouched, so an uncleared row stays uncleared. -/
theorem batch_continue_on_error (now : Int) (insF : Nat → Bool) (st : Store)
    (chosen : List Nat)
    (hpres : ∀ pid ∈ chosen, st.pending.any (fun r => r.id == pid) = true) :
    moveToIncome now insF (fun _ => false) st chosen
      = ((chosen.filter (fun i => !insF i)).foldl
            (fun s i => (moveOne now false false s i).1) st,
         chosen.filter (fun i => insF i))
    ∧ ∀ pid, insF pid = true →
        (moveToIncome now insF (fun _ => false) st chosen).1.pending.filter
            (fun r => r.id == pid)
          = st.pending.filter (fun r => r.id == pid) := by
  have heq := moveToIncome_eq now insF chosen st hpres
  refine ⟨heq, ?_⟩
  intro pid hpid
  rw [heq]
  apply foldl_pending_filter
  intro q hq
  intro hcontra
  have : insF q = false := by
    have := List.of_mem_filter hq
    simpa using this
  rw [hcontra, hpid] at this
  simp at this

/-- Witness for C8: ids 1 and 2 selected, the insert for id 1 fails; id 2 is
still reconciled, id 1 is reported and its pending row stays uncleared. -/
theorem batch_continue_on_error_witness :
    moveToIncome 5 (fun i => i == 1) (fun _ => false)
        ⟨[], [], [⟨1, 0, some 5, some "a", none, false⟩, ⟨2, 0, some 7, none, some "n", false⟩]⟩
        [1, 2]
      = (⟨[⟨5, 7, "", "n"⟩], [],
          [⟨1, 0, some 5, some "a", none, false⟩, ⟨2, 0, some 7, none, some "n", true⟩]⟩,
         [1])
    ∧ (moveToIncome 5 (fun i => i == 1) (fun _ => false)
        ⟨[], [], [⟨1, 0, some 5, some "a", none, false⟩, ⟨2, 0, some 7, none, some "n", false⟩]⟩
        [1, 2]).1.pending.filter (fun r => r.id == 1)
      = [⟨1, 0, some 5, some "a", none, false⟩] := by
  have h := batch_continue_on_error 5 (fun i => i == 1)
      ⟨[], [], [⟨1, 0, some 5, some "a", none, false⟩, ⟨2, 0, some 7, none, some "n", false⟩]⟩
      [1, 2] (by decide)
  refine ⟨h.1.trans (by decide), (h.2 1 rfl).trans (by decide)⟩

/-- A calendar date, as in `datetime.date`. -/
structure Date where
  year : Nat
  month : Nat
  day : Nat
deriving DecidableEq

/-- A wall-clock time of day (hours and minutes, as in the `HH:MM` strings
the extraction prompt asks for). -/
structure Time where
  hour : Nat
  minute : Nat
deriving DecidableEq

/-- A `datetime.datetime` value (to minute precision, which is all the
Quick Add path ever constructs). -/
structure DateTime where
  date : Date
  time : Time
deriving DecidableEq

/-- `calendar` day count per month, as `datetime.date` validates it. -/
def isLeap (y : Nat) : Bool :=
  y % 4 == 0 && (y % 100 != 0 || y % 400 == 0)

def daysInMonth (y m : Nat) : Nat :=
  if m = 2 then (if isLeap y then 29 else 28)
  else if m = 4 ∨ m = 6 ∨ m = 9 ∨ m = 11 then 30
  else 31

/-- The dates `datetime.date` accepts (`MINYEAR = 1`, `MAXYEAR = 9999`). -/
def validDate (d : Date) : Prop :=
  1 ≤ d.year ∧ d.year ≤ 9999 ∧ 1 ≤ d.month ∧ d.month ≤ 12
    ∧ 1 ≤ d.day ∧ d.day ≤ daysInMonth d.year d.month

instance (d : Date) : Decidable (validDate d) := by
  unfold validDate
  infer_instance

def validTime (t : Time) : Prop := t.hour ≤ 23 ∧ t.minute ≤ 59

instance (t : Time) : Decidable (validTime t) := by
  unfold validTime
  infer_instance

/-- The decimal digit character of `n % 10`-style formatting. -/
def digit? (c : Char) : Option Nat :=
  if c.isDigit then some (c.toNat - 48) else none

/-- Two-digit zero padding, as in `%02d` fields of `isoformat`. -/
def pad2 (n : Nat) : List Char :=
  [Nat.digitChar (n / 10), Nat.digitChar (n % 10)]

/-- Four-digit zero padding for the year field of `isoformat`. -/
def pad4 (n : Nat) : List Char :=
  [Nat.digitChar (n / 1000), Nat.digitChar (n / 100 % 10),
   Nat.digitChar (n / 10 % 10), Nat.digitChar (n % 10)]

/-- `date.isoformat()`: the `YYYY-MM-DD` string. -/
def dateIso (d : Date) : String :=
  ⟨pad4 d.year ++ '-' :: pad2 d.month ++ '-' :: pad2 d.day⟩

/-- The `HH:MM` rendering of a time of day. -/
def timeHM (t : Time) : String :=
  ⟨pad2 t.hour ++ ':' :: pad2 t.minute⟩

/-- Python `int(s)` on the 4-character year slice `dt_txt[:4]`: the value
on an all-digit slice, `none` (a raised `ValueError`) otherwise. -/
def intDigits (cs : List Char) : Option Nat :=
  match cs with
  | [] => none
  | _ =>
    cs.foldl (fun acc c =>
      match acc, digit? c with
      | some n, some d => some (n * 10 + d)
      | _, _ => none) (some 0)

/-- `datetime.fromisoformat(f"{dt_txt} {tm_txt}")` for the minute-precision
shape the Quick Add save produces (`YYYY-MM-DD HH:MM`): `none` models the
raised `ValueError` on any other shape or out-of-range field. -/
def fromIsoformat (s : String) : Option DateTime :=
  match s.data with
  | [y1, y2, y3, y4, s1, mo1, mo2, s2, d1, d2, s3, h1, h2, s4, mi1, mi2] =>
    if s1 = '-' ∧ s2 = '-' ∧ s3 = ' ' ∧ s4 = ':' then
      (digit? y1).bind fun a =>
      (digit? y2).bind fun b =>
      (digit? y3).bind fun c =>
      (digit? y4).bind fun e =>
      (digit? mo1).bind fun f =>
      (digit? mo2).bind fun g =>
      (digit? d1).bind fun h =>
      (digit? d2).bind fun i =>
      (digit? h1).bind fun j =>
      (digit? h2).bind fun k =>
      (digit? mi1).bind fun l =>
      (digit? mi2).bind fun m =>
      let dt : DateTime :=
        { date := { year := ((a * 10 + b) * 10 + c) * 10 + e
                    month := f * 10 + g
                    day := h * 10 + i }
          time := { hour := j * 10 + k, minute := l * 10 + m } }
      if validDate dt.date ∧ validTime dt.time then some dt else none
    else none
  | _ => none

/-- Python string truthiness and `or` for optional string fields:
`data.get(k) or dflt` — a missing key or empty string falls back. -/
def pyOr (v : Option String) (dflt : String) : String :=
  match v with
  | none => dflt
  | some s => if s = "" then dflt else s

/-- Python `str.title()` (ASCII): a letter after a non-letter is
uppercased, any other letter lowercased. -/
def titleAux (prevAlpha : Bool) : List Char → List Char
  | [] => []
  | c :: cs =>
      if c.isAlpha then
        (if prevAlpha then c.toLower else c.toUpper) :: titleAux true cs
      else c :: titleAux false cs

def pyTitle (s : String) : String := ⟨titleAux false s.data⟩

/-- The structured object returned by the extraction collaborator: every
field may be missing (`none`) or present-but-empty. -/
structure Extraction where
  date : Option String
  time : Option String
  amount_lkr : Option ℚ
  category : Option String
  source : Option String
  notes : Option String
deriving DecidableEq

/-- The record the Quick Add save builds before inserting. -/
structure NormRecord where
  ts : DateTime
  amount : ℚ
  category : String
  source : String
  notes : String
deriving DecidableEq

/-- The date-cleaning lines of the Quick Add save: `dt_txt = data.get("date")
or ""`; if it has 10 characters, `yr = int(dt_txt[:4])` (raising on a
non-digit slice) and a year before the current one resets `dt_txt` to
empty, marking it for the current-date fallback. -/
def qaDateTxt (today : Date) (v : Option String) : Option String :=
  let dt0 := pyOr v ""
  if dt0.length = 10 then
    match intDigits (dt0.data.take 4) with
    | none => none
    | some yr => some (if yr < today.year then "" else dt0)
  else some dt0

/-- The clean/validate block of the Quick Add "💾 Save to database" handler:
date fallback (absent/blank date, or one whose year is before the current
year, becomes today's date), time fallback `"12:00"`,
`float(data.get("amount_lkr") or 0)`, `(... or "Other").title()` for
category and source, and note falling back to the raw text.  `none` models
an uncaught exception (no record produced, nothing written). -/
def quickAddNormalize (today : Date) (data : Extraction) (raw : String) :
    Option NormRecord :=
  match qaDateTxt today data.date with
  | none => none
  | some dt1 =>
    let dt2 := if dt1 = "" then dateIso today else dt1
    let tm := pyOr data.time "12:00"
    match fromIsoformat (dt2 ++ " " ++ tm) with
    | none => none
    | some ts =>
      some { ts := ts
             amount := data.amount_lkr.getD 0
             category := pyTitle (pyOr data.category "Other")
             source := pyTitle (pyOr data.source "Other")
             notes := pyOr data.notes raw }

lemma digit?_digitChar (k : Nat) (hk : k < 10) : digit? (Nat.digitChar k) = some k := by
  interval_cases k <;> decide

lemma dateIso_data (d : Date) :
    (dateIso d).data
      = [Nat.digitChar (d.year / 1000), Nat.digitChar (d.year / 100 % 10),
         Nat.digitChar (d.year / 10 % 10), Nat.digitChar (d.year % 10), '-',
         Nat.digitChar (d.month / 10), Nat.digitChar (d.month % 10), '-',
         Nat.digitChar (d.day / 10), Nat.digitChar (d.day % 10)] := by
  simp [dateIso, pad4, pad2]

lemma dateIso_length (d : Date) : (dateIso d).length = 10 := by
  show (dateIso d).data.length = 10
  rw [dateIso_data]
  rfl

lemma dateIso_ne_empty (d : Date) : dateIso d ≠ "" := by
  intro h
  have := dateIso_length d
  rw [h] at this
  exact absurd this (by decide)

lemma dateIso_take4 (d : Date) :
    (dateIso d).data.take 4
      = [Nat.digitChar (d.year / 1000), Nat.digitChar (d.year / 100 % 10),
         Nat.digitChar (d.year / 10 % 10), Nat.digitChar (d.year % 10)] := by
  rw [dateIso_data]
  rfl

lemma intDigits_year (y : Nat) (hy : y ≤ 9999) :
    intDigits [Nat.digitChar (y / 1000), Nat.digitChar (y / 100 % 10),
               Nat.digitChar (y / 10 % 10), Nat.digitChar (y % 10)] = some y := by
  have h1 := digit?_digitChar (y / 1000) (by omega)
  have h2 := digit?_digitChar (y / 100 % 10) (by omega)
  have h3 := digit?_digitChar (y / 10 % 10) (by omega)
  have h4 := digit?_digitChar (y % 10) (by omega)
  simp only [intDigits, List.foldl_cons, List.foldl_nil, h1, h2, h3, h4,
    Option.some.injEq]
  omega

lemma fromIsoformat_roundtrip (d : Date) (t : Time) (hd : validDate d) (ht : validTime t) :
    fromIsoformat (dateIso d ++ " " ++ timeHM t) = some ⟨d, t⟩ := by
  obtain ⟨hy1, hy2, hm1, hm2, hd1, hd2⟩ := hd
  obtain ⟨hh, hmin⟩ := ht
  have hdata : (dateIso d ++ " " ++ timeHM t).data
      = [Nat.digitChar (d.year / 1000), Nat.digitChar (d.year / 100 % 10),
         Nat.digitChar (d.year / 10 % 10), Nat.digitChar (d.year % 10), '-',
         Nat.digitChar (d.month / 10), Nat.digitChar (d.month % 10), '-',
         Nat.digitChar (d.day / 10), Nat.digitChar (d.day % 10), ' ',
         Nat.digitChar (t.hour / 10), Nat.digitChar (t.hour % 10), ':',
         Nat.digitChar (t.minute / 10), Nat.digitChar (t.minute % 10)] := by
    rw [String.data_append, String.data_append, dateIso_data]
    simp [timeHM, pad2]
  have hd31 : daysInMonth d.year d.month ≤ 31 := by
    unfold daysInMonth
    split_ifs <;> omega
  have g1 := digit?_digitChar (d.year / 1000) (by omega)
  have g2 := digit?_digitChar (d.year / 100 % 10) (by omega)
  have g3 := digit?_digitChar (d.year / 10 % 10) (by omega)
  have g4 := digit?_digitChar (d.year % 10) (by omega)
  have g5 := digit?_digitChar (d.month / 10) (by omega)
  have g6 := digit?_digitChar (d.month % 10) (by omega)
  have g7 := digit?_digitChar (d.day / 10) (by omega)
  have g8 := digit?_digitChar (d.day % 10) (by omega)
  have g9 := digit?_digitChar (t.hour / 10) (by omega)
  have g10 := digit?_digitChar (t.hour % 10) (by omega)
  have g11 := digit?_digitChar (t.minute / 10) (by omega)
  have g12 := digit?_digitChar (t.minute % 10) (by omega)
  have ey : ((d.year / 1000 * 10 + d.year / 100 % 10) * 10 + d.year / 10 % 10) * 10
      + d.year % 10 = d.year := by omega
  have emo : d.month / 10 * 10 + d.month % 10 = d.month := by omega
  have eda : d.day / 10 * 10 + d.day % 10 = d.day := by omega
  have eho : t.hour / 10 * 10 + t.hour % 10 = t.hour := by omega
  have emi : t.minute / 10 * 10 + t.minute % 10 = t.minute := by omega
  simp only [fromIsoformat, hdata, g1, g2, g3, g4, g5, g6, g7, g8, g9, g10, g11, g12,
    Option.some_bind, ey, emo, eda, eho, emi]
  rw [if_pos (by simp)]
  rw [if_pos ⟨⟨hy1, hy2, hm1, hm2, hd1, hd2⟩, hh, hmin⟩]

lemma timeHM_noon : timeHM ⟨12, 0⟩ = "12:00" := by decide

lemma timeHM_length (t : Time) : (timeHM t).length = 5 := by
  show (timeHM t).data.length = 5
  simp [timeHM, pad2]

lemma timeHM_ne_empty (t : Time) : timeHM t ≠ "" := by
  intro h
  have := timeHM_length t
  rw [h] at this
  exact absurd this (by decide)

lemma timeHM_inj (t1 t2 : Time) (h1 : validTime t1) (h2 : validTime t2)
    (he : timeHM t1 = timeHM t2) : t1 = t2 := by
  have r1 := fromIsoformat_roundtrip ⟨2000, 1, 1⟩ t1 (by decide) h1
  have r2 := fromIsoformat_roundtrip ⟨2000, 1, 1⟩ t2 (by decide) h2
  rw [he] at r1
  have := Option.some.inj (r1.symm.trans r2)
  exact congrArg DateTime.time this

lemma dateIso_inj (d1 d2 : Date) (h1 : validDate d1) (h2 : validDate d2)
    (he : dateIso d1 = dateIso d2) : d1 = d2 := by
  have r1 := fromIsoformat_roundtrip d1 ⟨12, 0⟩ h1 (by decide)
  have r2 := fromIsoformat_roundtrip d2 ⟨12, 0⟩ h2 (by decide)
  rw [he] at r1
  have := Option.some.inj (r1.symm.trans r2)
  exact congrArg DateTime.date this

/-- The date field shapes the extraction prompt allows: missing, empty, or
a (valid) `YYYY-MM-DD` string. -/
def DateOK (v : Option String) : Prop :=
  v = none ∨ v = some "" ∨ ∃ d : Date, validDate d ∧ v = some (dateIso d)

/-- The time field shapes the extraction prompt allows: missing, empty, or
a (valid) `HH:MM` string. -/
def TimeOK (v : Option String) : Prop :=
  v = none ∨ v = some "" ∨ ∃ t : Time, validTime t ∧ v = some (timeHM t)

lemma qaDateTxt_blank (today : Date) (v : Option String)
    (hv : v = none ∨ v = some "") : qaDateTxt today v = some "" := by
  rcases hv with h | h <;> rw [h] <;> rfl

lemma qaDateTxt_iso (today : Date) (d0 : Date) (hv : validDate d0) :
    qaDateTxt today (some (dateIso d0))
      = some (if d0.year < today.year then "" else dateIso d0) := by
  unfold qaDateTxt
  have hp : pyOr (some (dateIso d0)) "" = dateIso d0 := by
    simp [pyOr, dateIso_ne_empty d0]
  rw [hp]
  rw [if_pos (dateIso_length d0), dateIso_take4, intDigits_year d0.year hv.2.1]

lemma pyOr_none_noon : pyOr none "12:00" = timeHM ⟨12, 0⟩ := by
  rw [timeHM_noon]
  rfl

lemma pyOr_blank_noon : pyOr (some "") "12:00" = timeHM ⟨12, 0⟩ := by
  rw [timeHM_noon]
  rfl

lemma resolve_time (data : Extraction) (ht : TimeOK data.time) :
    ∃ tt : Time, validTime tt ∧ pyOr data.time "12:00" = timeHM tt
      ∧ ((data.time = none ∨ data.time = some "") → tt = (⟨12, 0⟩ : Time))
      ∧ (∀ t0 : Time, validTime t0 → data.time = some (timeHM t0) → tt = t0) := by
  rcases ht with h | h | ⟨t0, hvt0, h⟩
  · refine ⟨⟨12, 0⟩, by decide, by rw [h]; exact pyOr_none_noon, fun _ => rfl, ?_⟩
    intro t0 _ heq
    rw [h] at heq
    cases heq
  · refine ⟨⟨12, 0⟩, by decide, by rw [h]; exact pyOr_blank_noon, fun _ => rfl, ?_⟩
    intro t0 _ heq
    rw [h] at heq
    exact absurd (Option.some.inj heq).symm (timeHM_ne_empty t0)
  · refine ⟨t0, hvt0, ?_, ?_, ?_⟩
    · rw [h]
      simp [pyOr, timeHM_ne_empty t0]
    · intro hblank
      rcases hblank with hb | hb <;> rw [h] at hb
      · cases hb
      · exact absurd (Option.some.inj hb) (timeHM_ne_empty t0)
    · intro t1 hvt1 heq
      rw [h] at heq
      exact timeHM_inj t0 t1 hvt0 hvt1 (Option.some.inj heq)

lemma quickAddNormalize_resolves (today : Date) (data : Extraction) (raw : String)
    (htoday : validDate today) (hdok : DateOK data.date) (htok : TimeOK data.time) :
    ∃ (dd : Date) (tt : Time), validDate dd ∧ validTime tt
      ∧ quickAddNormalize today data raw
          = some { ts := ⟨dd, tt⟩
                   amount := data.amount_lkr.getD 0
                   category := pyTitle (pyOr data.category "Other")
                   source := pyTitle (pyOr data.source "Other")
                   notes := pyOr data.notes raw }
      ∧ ((data.date = none ∨ data.date = some "") → dd = today)
      ∧ (∀ d0 : Date, validDate d0 → data.date = some (dateIso d0) →
            dd = if d0.year < today.year then today else d0)
      ∧ ((data.time = none ∨ data.time = some "") → tt = (⟨12, 0⟩ : Time))
      ∧ (∀ t0 : Time, validTime t0 → data.time = some (timeHM t0) → tt = t0) := by
  obtain ⟨tt, hvt, htm, httblank, httiso⟩ := resolve_time data htok
  have h2blank : (if ("" : String) = "" then dateIso today else "") = dateIso today :=
    if_pos rfl
  rcases hdok with hdn | hde | ⟨d0, hvd0, hdi⟩
  · refine ⟨today, tt, htoday, hvt, ?_, fun _ => rfl, ?_, httblank, httiso⟩
    · have h1 : qaDateTxt today data.date = some "" := qaDateTxt_blank _ _ (Or.inl hdn)
      simp only [quickAddNormalize, h1, h2blank, if_true, htm,
        fromIsoformat_roundtrip today tt htoday hvt]
    · intro d1 _ heq
      rw [hdn] at heq
      cases heq
  · refine ⟨today, tt, htoday, hvt, ?_, fun _ => rfl, ?_, httblank, httiso⟩
    · have h1 : qaDateTxt today data.date = some "" := qaDateTxt_blank _ _ (Or.inr hde)
      simp only [quickAddNormalize, h1, h2blank, if_true, htm,
        fromIsoformat_roundtrip today tt htoday hvt]
    · intro d1 _ heq
      rw [hde] at heq
      exact absurd (Option.some.inj heq).symm (dateIso_ne_empty d1)
  · have h1 : qaDateTxt today data.date
        = some (if d0.year < today.year then "" else dateIso d0) := by
      rw [hdi]
      exact qaDateTxt_iso today d0 hvd0
    have hnotblank : ∀ P : Prop, (data.date = none ∨ data.date = some "") → P := by
      intro P hb
      rcases hb with hb | hb <;> rw [hdi] at hb
      · cases hb
      · exact absurd (Option.some.inj hb) (dateIso_ne_empty d0)
    by_cases hyr : d0.year < today.year
    · rw [if_pos hyr] at h1
      refine ⟨today, tt, htoday, hvt, ?_, fun hb => hnotblank _ hb, ?_, httblank, httiso⟩
      · simp only [quickAddNormalize, h1, h2blank, if_true, htm,
          fromIsoformat_roundtrip today tt htoday hvt]
      · intro d1 hvd1 heq
        rw [hdi] at heq
        have he1 : d0 = d1 := dateIso_inj d0 d1 hvd0 hvd1 (Option.some.inj heq)
        rw [← he1, if_pos hyr]
    · rw [if_neg hyr] at h1
      refine ⟨d0, tt, hvd0, hvt, ?_, fun hb => hnotblank _ hb, ?_, httblank, httiso⟩
      · have h2 : (if dateIso d0 = "" then dateIso today else dateIso d0) = dateIso d0 :=
          if_neg (dateIso_ne_empty d0)
        simp only [quickAddNormalize, h1, h2, htm,
          fromIsoformat_roundtrip d0 tt hvd0 hvt]
      · intro d1 hvd1 heq
        rw [hdi] at heq
        have he1 : d0 = d1 := dateIso_inj d0 d1 hvd0 hvd1 (Option.some.inj heq)
        rw [← he1, if_neg hyr]

/-- C4: the Quick Add fallback policy.  For an extraction result whose date
and time fields are absent, blank, or well-formed, the save produces a
record in which every absent field has been replaced deterministically:
absent/blank or past-year date becomes today, absent time becomes 12:00,
absent amount becomes 0, absent category/source become "Other", category
and source are title-cased, and absent notes fall back to the raw text. -/
theorem normalizer_fallbacks (today : Date) (data : Extraction) (raw : String)
    (htoday : validDate today) (hdok : DateOK data.date) (htok : TimeOK data.time) :
    ∃ rec : NormRecord, quickAddNormalize today data raw = some rec
      ∧ rec.amount = data.amount_lkr.getD 0
      ∧ (data.amount_lkr = none → rec.amount = 0)
      ∧ rec.category = pyTitle (pyOr data.category "Other")
      ∧ ((data.category = none ∨ data.category = some "") → rec.category = "Other")
      ∧ (∀ s, data.category = some s → s ≠ "" → rec.category = pyTitle s)
      ∧ rec.source = pyTitle (pyOr data.source "Other")
      ∧ ((data.source = none ∨ data.source = some "") → rec.source = "Other")
      ∧ (∀ s, data.source = some s → s ≠ "" → rec.source = pyTitle s)
      ∧ ((data.notes = none ∨ data.notes = some "") → rec.notes = raw)
      ∧ ((data.date = none ∨ data.date = some "") → rec.ts.date = today)
      ∧ (∀ d0 : Date, validDate d0 → data.date = some (dateIso d0) →
            rec.ts.date = if d0.year < today.year then today else d0)
      ∧ ((data.time = none ∨ data.time = some "") → rec.ts.time = (⟨12, 0⟩ : Time))
      ∧ (∀ t0 : Time, validTime t0 → data.time = some (timeHM t0) → rec.ts.time = t0) := by
  obtain ⟨dd, tt, hvd, hvt, hnorm, hdblank, hdiso, htblank, htiso⟩ :=
    quickAddNormalize_resolves today data raw htoday hdok htok
  refine ⟨_, hnorm, rfl, ?_, rfl, ?_, ?_, rfl, ?_, ?_, ?_, hdblank, hdiso, htblank, htiso⟩
  · intro h
    rw [h]
    rfl
  · intro h
    rcases h with h | h <;> rw [h]
    · show pyTitle (pyOr none "Other") = "Other"
      decide
    · show pyTitle (pyOr (some "") "Other") = "Other"
      decide
  · intro s hs hne
    rw [hs]
    show pyTitle (pyOr (some s) "Other") = pyTitle s
    congr 1
    simp [pyOr, hne]
  · intro h
    rcases h with h | h <;> rw [h]
    · show pyTitle (pyOr none "Other") = "Other"
      decide
    · show pyTitle (pyOr (some "") "Other") = "Other"
      decide
  · intro s hs hne
    rw [hs]
    show pyTitle (pyOr (some s) "Other") = pyTitle s
    congr 1
    simp [pyOr, hne]
  · intro h
    rcases h with h | h <;> rw [h] <;> rfl

/-- Witness for C4 at the spec's example shapes: a past-year date
`"2021-03-05"`, blank time, amount 75000, blank category, missing source
and blank notes are normalized to today / 12:00 / 75000 / "Other" /
"Other" / the raw text. -/
theorem normalizer_fallbacks_witness :
    ∃ rec : NormRecord,
      quickAddNormalize ⟨2026, 10, 12⟩
          ⟨some "2021-03-05", some "", some 75000, some "", none, some ""⟩
          "Paid photographer 75000" = some rec
      ∧ rec.ts.date = ⟨2026, 10, 12⟩
      ∧ rec.ts.time = ⟨12, 0⟩
      ∧ rec.amount = 75000
      ∧ rec.category = "Other"
      ∧ rec.source = "Other"
      ∧ rec.notes = "Paid photographer 75000" := by
  obtain ⟨rec, h1, h2, _, _, h5, _, _, h8, _, h10, _, h12, h13, _⟩ :=
    normalizer_fallbacks ⟨2026, 10, 12⟩
      ⟨some "2021-03-05", some "", some 75000, some "", none, some ""⟩
      "Paid photographer 75000" (by decide)
      (Or.inr (Or.inr ⟨⟨2021, 3, 5⟩, by decide, by decide⟩))
      (Or.inr (Or.inl rfl))
  refine ⟨rec, h1, ?_, h13 (Or.inr rfl), ?_, h5 (Or.inr rfl), h8 (Or.inl rfl),
    h10 (Or.inr rfl)⟩
  · have hdd := h12 ⟨2021, 3, 5⟩ (by decide) (by decide)
    rw [if_pos (by decide)] at hdd
    exact hdd
  · rw [h2]
    rfl

/-- C5 counterexample: on a garbled non-empty date field the Quick Add save
raises (`datetime.fromisoformat("banana 12:00")` throws `ValueError`)
instead of resolving it through the fallback policy — the normalization
mapping is not total. -/
theorem normalizer_garbled_date_raises :
    quickAddNormalize ⟨2026, 10, 12⟩
        ⟨some "banana", none, some 75000, some "Food", none, none⟩ "x" = none := by
  decide

/-- C5 amended: the Quick Add save never raises — and thus always produces
a record — provided the date field is absent, blank or a well-formed
`YYYY-MM-DD` date and the time field is absent, blank or a well-formed
`HH:MM` time; a garbled non-empty date or time raises instead of falling
back. -/
theorem normalizer_total_on_wellformed (today : Date) (data : Extraction) (raw : String)
    (htoday : validDate today) (hdok : DateOK data.date) (htok : TimeOK data.time) :
    (quickAddNormalize today data raw).isSome = true := by
  obtain ⟨dd, tt, _, _, hnorm, _⟩ :=
    quickAddNormalize_resolves today data raw htoday hdok htok
  rw [hnorm]
  rfl

/-- Witness for C5 (amended): an extraction result with every field missing
still yields a record. -/
theorem normalizer_total_on_wellformed_witness :
    (quickAddNormalize ⟨2026, 10, 12⟩ ⟨none, none, none, none, none, none⟩ "hi").isSome
      = true :=
  normalizer_total_on_wellformed ⟨2026, 10, 12⟩ ⟨none, none, none, none, none, none⟩ "hi"
    (by decide) (Or.inl rfl) (Or.inl rfl)

/-- The Add Income form handler: `if submitted and amount > 0: insert into
income ...` (a zero amount is rejected, nothing is written). -/
def addIncome (st : Store) (ts : Int) (amount : ℚ) (src notes : String) : Store :=
  if amount > 0 then { st with income := st.income ++ [⟨ts, amount, src, notes⟩] } else st

/-- The Add Expense form handler: `if submitted and amt > 0 and
cat.strip(): insert into expense ...`. -/
def addExpense (st : Store) (ts : Int) (amt : ℚ) (cat note : String) : Store :=
  if amt > 0 ∧ cat.trim ≠ "" then
    { st with expense := st.expense ++ [⟨ts, amt, cat.trim, note⟩] }
  else st

/-- The Pending form handler: `if submitted and p_amt > 0: insert into
pending_income ...` (`nid` is the serial id the store assigns). -/
def addPendingIncome (st : Store) (nid : Nat) (expected : Int) (amt : ℚ)
    (src note : String) : Store :=
  if amt > 0 then
    { st with pending := st.pending ++ [⟨nid, expected, some amt, some src, some note, false⟩] }
  else st

/-- Embedding of a wall-clock `datetime` on the integer timestamp axis of
the stored rows (minutes since an epoch-like origin; strictly monotone in
calendar order). -/
def dtCode (dt : DateTime) : Int :=
  ((((dt.date.year * 13 + dt.date.month) * 32 + dt.date.day) * 24 + dt.time.hour) * 60
    + dt.time.minute : Nat)

/-- The insert step of the Quick Add save: after the clean/validate block,
the record is written unconditionally (there is no amount check on this
path); `target` is the "Save as" radio value.  On a raised exception
(`none`) nothing is written. -/
def quickAddSave (target : String) (today : Date) (data : Extraction) (raw : String)
    (st : Store) : Store :=
  match quickAddNormalize today data raw with
  | none => st
  | some rec =>
      if target = "income" then
        { st with income := st.income ++ [⟨dtCode rec.ts, rec.amount, rec.source, rec.notes⟩] }
      else
        { st with expense := st.expense ++ [⟨dtCode rec.ts, rec.amount, rec.category, rec.notes⟩] }

/-- C3 counterexample: a Quick Add submission whose amount is 0 is NOT
rejected — the save persists an expense record with amount 0 and the store
changes. -/
theorem quickadd_zero_amount_persisted :
    ((quickAddSave "expense" ⟨2026, 10, 12⟩ ⟨none, none, some 0, none, none, none⟩
        "zero" ⟨[], [], []⟩).expense.map (fun e => e.amount_lkr) = [0])
    ∧ quickAddSave "expense" ⟨2026, 10, 12⟩ ⟨none, none, some 0, none, none, none⟩
        "zero" ⟨[], [], []⟩ ≠ (⟨[], [], []⟩ : Store) := by
  decide

/-- C3 amended: zero-amount submissions are rejected before persistence by
the Add Income, Add Expense and Pending form handlers (the store is
unchanged), but the Quick Add save performs no amount validation: whenever
normalization succeeds it persists the record, including one whose amount
resolved to 0. -/
theorem zero_amount_validation (st : Store) (ts expected : Int) (nid : Nat)
    (src cat note : String) :
    addIncome st ts 0 src note = st
    ∧ addExpense st ts 0 cat note = st
    ∧ addPendingIncome st nid expected 0 src note = st
    ∧ ∀ (today : Date) (data : Extraction) (raw : String) (rec : NormRecord),
        quickAddNormalize today data raw = some rec →
        (quickAddSave "income" today data raw st).income
          = st.income ++ [⟨dtCode rec.ts, rec.amount, rec.source, rec.notes⟩] := by
  refine ⟨?_, ?_, ?_, ?_⟩
  · unfold addIncome
    rw [if_neg (lt_irrefl (0 : ℚ))]
  · unfold addExpense
    rw [if_neg (fun h => lt_irrefl (0 : ℚ) h.1)]
  · unfold addPendingIncome
    rw [if_neg (lt_irrefl (0 : ℚ))]
  · intro today data raw rec h
    have hsave : quickAddSave "income" today data raw st
        = { st with income :=
              st.income ++ [⟨dtCode rec.ts, rec.amount, rec.source, rec.notes⟩] } := by
      unfold quickAddSave
      rw [h]
      rfl
    rw [hsave]

/-- Witness for C3 (amended): zero-amount form submissions leave the empty
store empty, while a Quick Add save of an all-absent extraction (amount
resolved to 0) persists an income record. -/
theorem zero_amount_validation_witness :
    addIncome ⟨[], [], []⟩ 0 0 "Salary" "" = (⟨[], [], []⟩ : Store)
    ∧ addExpense ⟨[], [], []⟩ 0 0 "Ring" "" = (⟨[], [], []⟩ : Store)
    ∧ addPendingIncome ⟨[], [], []⟩ 1 0 0 "Gift" "" = (⟨[], [], []⟩ : Store)
    ∧ (quickAddSave "income" ⟨2026, 10, 12⟩ ⟨none, none, none, none, none, none⟩ "hi"
        ⟨[], [], []⟩).income
      = [] ++ [⟨dtCode ⟨⟨2026, 10, 12⟩, ⟨12, 0⟩⟩, 0, "Other", "hi"⟩] := by
  have h := zero_amount_validation ⟨[], [], []⟩ 0 0 1 "Salary" "Ring" ""
  exact ⟨h.1, h.2.1, h.2.2.1,
    h.2.2.2 ⟨2026, 10, 12⟩ ⟨none, none, none, none, none, none⟩ "hi"
      ⟨⟨⟨2026, 10, 12⟩, ⟨12, 0⟩⟩, 0, "Other", "Other", "hi"⟩ (by decide)⟩

/-- Modelled from the spec: the Aggregator's compliance percentage.  The
source under `src/` only draws the spent-vs-budget bar chart; the spec's
Aggregator contract additionally defines `percentage = spend/limit × 100`,
treated as 0 when the limit is 0. -/
def compliancePct (spend limit : ℚ) : ℚ :=
  if limit = 0 then 0 else spend / limit * 100

/-- Modelled from the spec: the Aggregator's compliance bucket labels for a
category present in both the spend and budget tables: "Under 80%" when
pct < 80, "80–100%" when 80 ≤ pct ≤ 100, "Over" when pct > 100. -/
def complianceBucket (spend limit : ℚ) : String :=
  if compliancePct spend limit < 80 then "Under 80%"
  else if compliancePct spend limit ≤ 100 then "80–100%"
  else "Over"

/-- C6: compliance bucketing boundaries.  `pct = spend/limit × 100` with a
zero limit giving pct 0 (hence "Under 80%"); pct < 80 is "Under 80%",
80 ≤ pct ≤ 100 is "80–100%" (in particular spend = limit, i.e.
spend/limit = 1.00), and pct > 100 is "Over". -/
theorem compliance_bucketing (spend limit : ℚ) :
    compliancePct spend 0 = 0
    ∧ complianceBucket spend 0 = "Under 80%"
    ∧ (limit ≠ 0 → compliancePct spend limit = spend / limit * 100)
    ∧ (compliancePct spend limit < 80 → complianceBucket spend limit = "Under 80%")
    ∧ (80 ≤ compliancePct spend limit → compliancePct spend limit ≤ 100 →
        complianceBucket spend limit = "80–100%")
    ∧ (100 < compliancePct spend limit → complianceBucket spend limit = "Over")
    ∧ (limit ≠ 0 → spend = limit → complianceBucket spend limit = "80–100%") := by
  have hpct0 : compliancePct spend 0 = 0 := by
    unfold compliancePct
    rw [if_pos rfl]
  refine ⟨hpct0, ?_, ?_, ?_, ?_, ?_, ?_⟩
  · unfold complianceBucket
    rw [hpct0, if_pos (by norm_num)]
  · intro h
    unfold compliancePct
    rw [if_neg h]
  · intro h
    unfold complianceBucket
    rw [if_pos h]
  · intro h1 h2
    unfold complianceBucket
    rw [if_neg (not_lt.mpr h1), if_pos h2]
  · intro h
    unfold complianceBucket
    rw [if_neg (not_lt.mpr (by linarith)), if_neg (not_le.mpr h)]
  · intro h0 heq
    have hpct : compliancePct spend limit = 100 := by
      unfold compliancePct
      rw [if_neg h0, heq, div_self h0]
      norm_num
    unfold complianceBucket
    rw [hpct]
    norm_num

/-- Witness for C6: spend 100 against limit 100 is "80–100%", limit 0 is
"Under 80%", spend 50 / limit 100 is "Under 80%", spend 101 / limit 100 is
"Over". -/
theorem compliance_bucketing_witness :
    complianceBucket 100 100 = "80–100%"
    ∧ complianceBucket 50 0 = "Under 80%"
    ∧ complianceBucket 50 100 = "Under 80%"
    ∧ complianceBucket 101 100 = "Over" :=
  ⟨(compliance_bucketing 100 100).2.2.2.2.2.2 (by norm_num) rfl,
   (compliance_bucketing 50 0).2.1,
   (compliance_bucketing 50 100).2.2.2.1 (by norm_num [compliancePct]),
   (compliance_bucketing 101 100).2.2.2.2.2.1 (by norm_num [compliancePct])⟩

/-- `cat_tot = df_exp.groupby("category")["amount_lkr"].sum()`: one entry
per distinct category (first-occurrence order), the summed spend. -/
def catTotals (exp : List ExpenseRecord) : List (String × ℚ) :=
  ((exp.map (·.category)).eraseDups).map
    (fun c => (c, ((exp.filter (fun e => e.category == c)).map (·.amount_lkr)).sum))

/-- `cat_tot.loc[k] = v` on a pandas Series: overwrite the entry when the
key exists, append it otherwise. -/
def setLoc (l : List (String × ℚ)) (k : String) (v : ℚ) : List (String × ℚ) :=
  if l.any (fun p => p.1 == k) then
    l.map (fun p => if p.1 == k then (p.1, v) else p)
  else l ++ [(k, v)]

/-- The donut-chart small-slice merging: `tail_threshold = 0.05 *
cat_tot.sum()`; `small_sum = cat_tot[cat_tot < tail_threshold].sum()`;
`cat_tot = cat_tot[cat_tot >= tail_threshold]`; `if small_sum > 0:
cat_tot.loc["Other"] = small_sum`. -/
def mergeSmallSlices (catTot : List (String × ℚ)) : List (String × ℚ) :=
  let total := (catTot.map (·.2)).sum
  let thr := 5 / 100 * total
  let smallSum := ((catTot.filter (fun p => p.2 < thr)).map (·.2)).sum
  let kept := catTot.filter (fun p => thr ≤ p.2)
  if smallSum > 0 then setLoc kept "Other" smallSum else kept

/-- C7 (failing input): with expenses `Other = 100` and `A = 2`, the 5%
threshold is 5.1, so `A` is a small slice (small_sum 2) and `Other` is
retained; `cat_tot.loc["Other"] = small_sum` then OVERWRITES the retained
`Other` spend of 100 with 2.  The merged buckets sum to 2, not to the
total expense 102 — the merge does not preserve the sum. -/
theorem merge_small_slices_drops_other :
    mergeSmallSlices (catTotals [⟨0, 100, "Other", ""⟩, ⟨1, 2, "A", ""⟩])
        = [("Other", 2)]
    ∧ ((mergeSmallSlices (catTotals [⟨0, 100, "Other", ""⟩, ⟨1, 2, "A", ""⟩])).map
          (·.2)).sum = 2
    ∧ ((catTotals [⟨0, 100, "Other", ""⟩, ⟨1, 2, "A", ""⟩]).map (·.2)).sum = 102
    ∧ totalExpense [⟨0, 100, "Other", ""⟩, ⟨1, 2, "A", ""⟩] = 102 := by
  have hb1 : ("A" == "Other") = false := by decide
  have hb2 : ("Other" == "Other") = true := by decide
  have hb3 : ("A" == "A") = true := by decide
  have hb4 : ("Other" == "A") = false := by decide
  have hcat : catTotals [⟨0, 100, "Other", ""⟩, ⟨1, 2, "A", ""⟩]
      = [("Other", 100), ("A", 2)] := by
    norm_num [catTotals, List.eraseDups, List.eraseDups.loop, List.contains, List.elem,
      hb1, hb2, hb3, hb4]
  have hmerge : mergeSmallSlices [(("Other" : String), (100 : ℚ)), ("A", 2)]
      = [("Other", 2)] := by
    norm_num [mergeSmallSlices, setLoc]
  refine ⟨by rw [hcat, hmerge], by rw [hcat, hmerge]; norm_num, by rw [hcat]; norm_num,
    by norm_num [totalExpense]⟩

end ExpenseManager
